import Mathlib

/-!
sdoor: a SOCKS5 proxy front end (`main.go`).

A shallow embedding of `src/main.go`.  The program wires three things into the
`go-socks5` library: a `Dial` hook that resolves a host name and connects by IP,
an optional user/password authenticator, and `customResolver`, a resolver that
answers with the first IPv4 address of a lookup.  The operating system and the
Go `net` package are an explicit environment (`Net`): every call the program
makes to `net.SplitHostPort`, `net.LookupIP` and `net.DialTCP` is a field of
that record, so the theorems hold for every behaviour of the network.

Calls to `log.Printf` write to the log only and return nothing the program
reads; they are left out of the embedding.
-/

namespace Sdoor

/-! ## Data model -/

/-- A Go `error` value.  `external` is an error produced by the `net` package
(the text is its `Error()` string); `errorf` is one built by `fmt.Errorf`. -/
inductive GoError where
  | external (descr : String)
  | errorf (msg : String)
deriving DecidableEq, Repr

/-- A `net.IP` that is an address: a non-nil byte slice (4 bytes, 16 bytes, or
any other length).  Go's nil `net.IP` is `none` of `Option IP`. -/
abbrev IP := List UInt8

/-- A `context.Context`, reduced to what a dialer could observe of it: an
optional deadline and whether it is already cancelled. -/
structure Context where
  deadline : Option Nat
  cancelled : Bool
deriving DecidableEq, Repr

/-- A `net.TCPAddr`. -/
structure TCPAddr where
  IP : IP
  Port : Int
  Zone : String
deriving DecidableEq, Repr

/-- An established connection, named by a handle. -/
structure Conn where
  handle : Nat
deriving DecidableEq, Repr

/-- The part of the Go `net` package the program calls. -/
structure Net where
  SplitHostPort : String → Except GoError (String × String)
  LookupIP : String → Except GoError (List IP)
  DialTCP : String → TCPAddr → Except GoError Conn

/-! ## `net.IP.To4` (Go standard library) -/

/-- The helper `isZeros` of package `net`: every byte of the slice is zero. -/
def isZeros (p : List UInt8) : Bool :=
  p.all (fun b => b == 0)

/-- The method `net.IP.To4`: a 4-byte address is returned as it is, a 16-byte
address `::ffff:a.b.c.d` is returned as its last four bytes, anything else is
nil. -/
def To4 (ip : IP) : Option IP :=
  if ip.length = 4 then
    some ip
  else if ip.length = 16 && isZeros (ip.take 10) && ip.get? 10 == some 0xff
      && ip.get? 11 == some 0xff then
    some ((ip.drop 12).take 4)
  else
    none

/-! ## `customResolver.Resolve` -/

/-- The loop of `Resolve` over the looked-up addresses: return at the first
address whose `To4` is not nil, fall through to the error after the last. -/
def customResolver.Resolve.loop (ctx : Context) (name : String) :
    List IP → Context × Option IP × Option GoError
  | [] => (ctx, none, some (GoError.errorf ("no IPv4 address found for " ++ name)))
  | ip :: rest =>
    match To4 ip with
    | some ipv4 => (ctx, some ipv4, none)
    | none => customResolver.Resolve.loop ctx name rest

/-- The method `(*customResolver).Resolve`: the returned triple is
`(context, IP or nil, error or nil)`. -/
def customResolver.Resolve (net : Net) (ctx : Context) (name : String) :
    Context × Option IP × Option GoError :=
  match net.LookupIP name with
  | .error err => (ctx, none, some err)
  | .ok ips => customResolver.Resolve.loop ctx name ips

/-! ## `parseInt` -/

/-- Two's-complement wrap-around of a mathematical integer into a signed
integer of `bits` bits. -/
def wrapInt (bits : Nat) (x : Int) : Int :=
  (x + 2 ^ (bits - 1)) % 2 ^ bits - 2 ^ (bits - 1)

/-- One iteration of the loop of `parseInt`: `n = n*10 + int(c-'0')`.  The
rune subtraction is `int32` arithmetic, the rest is arithmetic of `int`, which
is `bits` wide. -/
def parseInt.step (bits : Nat) (n : Int) (c : Char) : Int :=
  wrapInt bits (wrapInt bits (n * 10) + wrapInt bits (wrapInt 32 ((c.toNat : Int) - 48)))

/-- The function `parseInt`: a left-to-right loop over the runes of `s`,
starting from `0`.  `bits` is the width of Go's `int` on the platform (32 or
64). -/
def parseInt (bits : Nat) (s : String) : Int :=
  s.toList.foldl (parseInt.step bits) 0

/-! ## The `Dial` hook -/

/-- What one call of the `Dial` hook did: the calls it made to `net.DialTCP`
(network and remote address, in order) and the value it returned. -/
structure DialOutcome where
  attempts : List (String × TCPAddr)
  result : Except GoError Conn

/-- The closure `conf.Dial` of `main`.  `ip` starts as nil and is set by the
first iteration of the loop, which breaks at once; the entries of a lookup
result are addresses, so `ip == nil` after the loop says that the list was
empty.  The context is a parameter the body never reads. -/
def Dial (net : Net) (bits : Nat) (_ctx : Context) (network addr : String) : DialOutcome :=
  match net.SplitHostPort addr with
  | .error err => ⟨[], .error err⟩
  | .ok (host, port) =>
    match net.LookupIP host with
    | .error err => ⟨[], .error err⟩
    | .ok ips =>
      match ips.head? with
      | none => ⟨[], .error (GoError.errorf ("no IP address found for " ++ host))⟩
      | some ip =>
        let raddr : TCPAddr := ⟨ip, parseInt bits port, ""⟩
        ⟨[(network, raddr)], net.DialTCP network raddr⟩

/-- The value of a big-endian list of decimal digits, continuing from `acc`. -/
def decVal (acc : Nat) (ds : List Nat) : Nat :=
  ds.foldl (fun a d => a * 10 + d) acc


/-! ## `main` -/

/-- The type `socks5.StaticCredentials`, a `map[string]string`, as the list of
its entries. -/
abbrev StaticCredentials := List (String × String)

/-- The implementations of the interface `socks5.Authenticator`. -/
inductive Authenticator where
  | NoAuthAuthenticator
  | UserPassAuthenticator (Credentials : StaticCredentials)
deriving DecidableEq, Repr

/-- The fields of `socks5.Config` that `main` or the library constructor
touches.  A hook that is not set is `none`. -/
structure Config where
  AuthMethods : List Authenticator
  Credentials : Option StaticCredentials
  Resolver : Option (Context → String → Context × Option IP × Option GoError)
  Dial : Option (Context → String → String → DialOutcome)

/-- The options given on the command line, as package `flag` parsed them; an
option that was not given is `none`. -/
structure Args where
  port : Option Int
  user : Option String
  pass : Option String
deriving DecidableEq, Repr

/-- The value of a flag declared by `flag.Int(name, dflt, usage)` after
`flag.Parse()`. -/
def flagInt (dflt : Int) (given : Option Int) : Int :=
  given.getD dflt

/-- The value of a flag declared by `flag.String(name, dflt, usage)` after
`flag.Parse()`. -/
def flagString (dflt : String) (given : Option String) : String :=
  given.getD dflt

/-- What `main` hands to the library: the configuration passed to
`socks5.New` and the two arguments of `server.ListenAndServe`, the call made
once the constructor has returned a server. -/
structure Startup where
  conf : Config
  network : String
  addr : String

/-- The function `main`. -/
def main (net : Net) (bits : Nat) (args : Args) : Startup :=
  let port := flagInt 1080 args.port
  let username := flagString "" args.user
  let password := flagString "" args.pass
  let authMethods : List Authenticator :=
    if username ≠ "" ∧ password ≠ "" then
      [Authenticator.UserPassAuthenticator [(username, password)]]
    else
      []
  let conf : Config :=
    ⟨authMethods, none, some (customResolver.Resolve net), some (Dial net bits)⟩
  ⟨conf, "tcp", ":" ++ toString port⟩

/-- Modelled from the spec: the constructor `socks5.New` belongs to the
go-socks5 library, which is not under `src/`.  The spec says that when user and
password are not both given "NoAuth is the sole method"; the constructor is
what makes it so: a configuration whose `AuthMethods` is empty gets the single
method NoAuth (or a single UserPass authenticator when the `Credentials` field
is set, which `main` never does), and a non-empty `AuthMethods` is kept. -/
def socks5New (conf : Config) : Config :=
  if conf.AuthMethods = [] then
    match conf.Credentials with
    | some creds =>
      ⟨[Authenticator.UserPassAuthenticator creds], conf.Credentials, conf.Resolver, conf.Dial⟩
    | none =>
      ⟨[Authenticator.NoAuthAuthenticator], conf.Credentials, conf.Resolver, conf.Dial⟩
  else
    conf

/-! ## A concrete network, for evaluating the definitions -/

/-- A network in which `example.com` has an IPv6 and an IPv4 address,
`v6.example.com` has an IPv6 address only, `empty.example.com` resolves to
the empty list, and every dial succeeds. -/
def demoNet : Net where
  SplitHostPort addr :=
    if addr = "example.com:80" then .ok ("example.com", "80")
    else if addr = "v6.example.com:0443" then .ok ("v6.example.com", "0443")
    else if addr = "empty.example.com:80" then .ok ("empty.example.com", "80")
    else if addr = "nowhere.invalid:80" then .ok ("nowhere.invalid", "80")
    else .error (GoError.external "missing port in address")
  LookupIP host :=
    if host = "example.com" then
      .ok [[0x26, 0x06, 0x28, 0, 0x02, 0x20, 0, 1, 0x02, 0x48, 0x18, 0x93, 0x25, 0xc8, 0x19, 0x46],
        [93, 184, 216, 34]]
    else if host = "v6.example.com" then
      .ok [[0x26, 0x06, 0x28, 0, 0x02, 0x20, 0, 1, 0x02, 0x48, 0x18, 0x93, 0x25, 0xc8, 0x19, 0x46]]
    else if host = "empty.example.com" then .ok []
    else .error (GoError.external "no such host")
  DialTCP _ _ := .ok ⟨1⟩

/-- A network that accepts two addresses whose port text is not the decimal
string of a number that fits in `int`: a signed port, and one above `2^64`.
`net.SplitHostPort` does not inspect the port text. -/
def oddPortNet : Net where
  SplitHostPort addr :=
    if addr = "example.com:-1" then .ok ("example.com", "-1")
    else if addr = "example.com:18446744073709551696" then
      .ok ("example.com", "18446744073709551696")
    else .error (GoError.external "missing port in address")
  LookupIP host :=
    if host = "example.com" then .ok [[93, 184, 216, 34]]
    else .error (GoError.external "no such host")
  DialTCP _ _ := .ok ⟨1⟩

/-- A context that is cancelled and whose deadline has passed. -/
def deadContext : Context := ⟨some 0, true⟩

/-- The background context: no deadline, never cancelled. -/
def background : Context := ⟨none, false⟩

/-! ## Facts about `To4` and the resolver loop -/

theorem To4_length {ip v4 : IP} (h : To4 ip = some v4) : v4.length = 4 := by
  unfold To4 at h
  split_ifs at h with h4 h16
  · cases h; exact h4
  · cases h
    simp only [Bool.and_eq_true, decide_eq_true_eq] at h16
    simp only [List.length_take, List.length_drop]
    omega

theorem Resolve.loop_fst (ctx : Context) (name : String) (ips : List IP) :
    (customResolver.Resolve.loop ctx name ips).1 = ctx := by
  induction ips with
  | nil => rfl
  | cons ip rest ih =>
    unfold customResolver.Resolve.loop
    cases To4 ip with
    | none => exact ih
    | some v => rfl

theorem Resolve.loop_ip_length (ctx : Context) (name : String) (ips : List IP) (v : IP)
    (h : (customResolver.Resolve.loop ctx name ips).2.1 = some v) : v.length = 4 := by
  induction ips with
  | nil => cases h
  | cons ip rest ih =>
    unfold customResolver.Resolve.loop at h
    cases hip : To4 ip with
    | none =>
      rw [hip] at h
      exact ih h
    | some v4 =>
      rw [hip] at h
      cases h
      exact To4_length hip

theorem Resolve.loop_skip (ctx : Context) (name : String) (pre rest : List IP)
    (hpre : ∀ q ∈ pre, To4 q = none) :
    customResolver.Resolve.loop ctx name (pre ++ rest)
      = customResolver.Resolve.loop ctx name rest := by
  induction pre with
  | nil => rfl
  | cons q pre ih =>
    have hq : To4 q = none := hpre q (List.mem_cons_self q pre)
    have hrest : ∀ r ∈ pre, To4 r = none := fun r hr => hpre r (List.mem_cons_of_mem q hr)
    rw [List.cons_append, customResolver.Resolve.loop, hq]
    exact ih hrest

theorem exists_first_ipv4 (ips : List IP) (h : ∃ ip ∈ ips, To4 ip ≠ none) :
    ∃ pre ip post v4, ips = pre ++ ip :: post ∧ (∀ q ∈ pre, To4 q = none) ∧
      To4 ip = some v4 := by
  induction ips with
  | nil => obtain ⟨ip, hmem, _⟩ := h; cases hmem
  | cons a rest ih =>
    cases ha : To4 a with
    | some v4 => exact ⟨[], a, rest, v4, rfl, fun q hq => absurd hq (List.not_mem_nil q), ha⟩
    | none =>
      have hrest : ∃ ip ∈ rest, To4 ip ≠ none := by
        obtain ⟨ip, hmem, hne⟩ := h
        rcases List.mem_cons.mp hmem with rfl | hin
        · exact absurd ha hne
        · exact ⟨ip, hin, hne⟩
      obtain ⟨pre, ip, post, v4, hsplit, hpre, hip⟩ := ih hrest
      refine ⟨a :: pre, ip, post, v4, by rw [hsplit, List.cons_append], ?_, hip⟩
      intro q hq
      rcases List.mem_cons.mp hq with rfl | hin
      · exact ha
      · exact hpre q hin

/-! ## The resolver: claims C1, C2, C7 -/

/-- C1: when the lookup of `name` succeeds and the list holds an IPv4 address,
`Resolve` returns no error and the 4-byte form of the first address of the
list that is IPv4; every address before it is not IPv4. -/
theorem Resolve_returns_first_ipv4 (net : Net) (ctx : Context) (name : String)
    (ips : List IP) (hlook : net.LookupIP name = .ok ips)
    (hv4 : ∃ ip ∈ ips, To4 ip ≠ none) :
    ∃ pre ip post v4, ips = pre ++ ip :: post ∧ (∀ q ∈ pre, To4 q = none) ∧
      To4 ip = some v4 ∧ v4.length = 4 ∧
      customResolver.Resolve net ctx name = (ctx, some v4, none) := by
  obtain ⟨pre, ip, post, v4, hsplit, hpre, hip⟩ := exists_first_ipv4 ips hv4
  refine ⟨pre, ip, post, v4, hsplit, hpre, hip, To4_length hip, ?_⟩
  unfold customResolver.Resolve
  rw [hlook]
  show customResolver.Resolve.loop ctx name ips = (ctx, some v4, none)
  rw [hsplit, Resolve.loop_skip ctx name pre (ip :: post) hpre,
    customResolver.Resolve.loop, hip]

theorem Resolve_returns_first_ipv4_witness :
    (∃ pre ip post v4,
      [[0x26, 0x06, 0x28, 0, 0x02, 0x20, 0, 1, 0x02, 0x48, 0x18, 0x93, 0x25, 0xc8, 0x19, 0x46],
        [93, 184, 216, 34]] = pre ++ ip :: post ∧ (∀ q ∈ pre, To4 q = none) ∧
      To4 ip = some v4 ∧ v4.length = 4 ∧
      customResolver.Resolve demoNet background "example.com" = (background, some v4, none)) ∧
    customResolver.Resolve demoNet background "example.com"
      = (background, some [93, 184, 216, 34], none) :=
  ⟨Resolve_returns_first_ipv4 demoNet background "example.com" _ rfl
    ⟨[93, 184, 216, 34], List.mem_cons_of_mem _ (List.mem_cons_self _ _), by decide⟩, rfl⟩

/-- C2: when the lookup of `name` succeeds and no address of the list is IPv4
(the list may be empty), `Resolve` returns a nil IP and the error
"no IPv4 address found for <name>"; and whatever the network answers, an IP
that `Resolve` returns is 4 bytes long, never a 16-byte address. -/
theorem Resolve_no_ipv4 (net : Net) (ctx : Context) (name : String)
    (ips : List IP) (hlook : net.LookupIP name = .ok ips)
    (hnone : ∀ ip ∈ ips, To4 ip = none) :
    customResolver.Resolve net ctx name
        = (ctx, none, some (GoError.errorf ("no IPv4 address found for " ++ name))) ∧
      ∀ (net2 : Net) (ctx2 : Context) (name2 : String) (v : IP),
        (customResolver.Resolve net2 ctx2 name2).2.1 = some v → v.length = 4 := by
  constructor
  · unfold customResolver.Resolve
    rw [hlook]
    show customResolver.Resolve.loop ctx name ips = _
    have h := Resolve.loop_skip ctx name ips [] hnone
    rw [List.append_nil] at h
    rw [h]
    rfl
  · intro net2 ctx2 name2 v hv
    unfold customResolver.Resolve at hv
    cases hl : net2.LookupIP name2 with
    | error err =>
      rw [hl] at hv
      cases hv
    | ok ips2 =>
      rw [hl] at hv
      exact Resolve.loop_ip_length ctx2 name2 ips2 v hv

theorem Resolve_no_ipv4_witness :
    customResolver.Resolve demoNet background "v6.example.com"
        = (background, none,
            some (GoError.errorf ("no IPv4 address found for " ++ "v6.example.com"))) ∧
      customResolver.Resolve demoNet background "empty.example.com"
        = (background, none,
            some (GoError.errorf ("no IPv4 address found for " ++ "empty.example.com"))) :=
  ⟨(Resolve_no_ipv4 demoNet background "v6.example.com" _ rfl (by decide)).1,
    (Resolve_no_ipv4 demoNet background "empty.example.com" [] rfl (by decide)).1⟩

/-- C7: when the lookup of `name` fails with the error `e`, `Resolve` returns
a nil IP and `e` itself; and on every path, for every network, `Resolve`
returns the context it was given. -/
theorem Resolve_lookup_error (net : Net) (ctx : Context) (name : String) (e : GoError)
    (hlook : net.LookupIP name = .error e) :
    customResolver.Resolve net ctx name = (ctx, none, some e) ∧
      ∀ (net2 : Net) (ctx2 : Context) (name2 : String),
        (customResolver.Resolve net2 ctx2 name2).1 = ctx2 := by
  constructor
  · unfold customResolver.Resolve
    rw [hlook]
  · intro net2 ctx2 name2
    unfold customResolver.Resolve
    cases net2.LookupIP name2 with
    | error err => rfl
    | ok ips => exact Resolve.loop_fst ctx2 name2 ips
theorem Resolve_lookup_error_witness :
    customResolver.Resolve demoNet deadContext "nowhere.invalid"
      = (deadContext, none, some (GoError.external "no such host")) :=
  (Resolve_lookup_error demoNet deadContext "nowhere.invalid"
    (GoError.external "no such host") rfl).1

/-! ## Decimal strings and `parseInt` -/

theorem wrapInt_eq_self (bits : Nat) (hb : 0 < bits) (x : Int)
    (hlo : -(2 : Int) ^ (bits - 1) ≤ x) (hhi : x < 2 ^ (bits - 1)) :
    wrapInt bits x = x := by
  have h2 : (2 : Int) ^ bits = 2 * 2 ^ (bits - 1) := by
    obtain ⟨k, rfl⟩ : ∃ k, bits = k + 1 := ⟨bits - 1, by omega⟩
    rw [Nat.add_sub_cancel, pow_succ]
    ring
  unfold wrapInt
  rw [h2]
  generalize (2 : Int) ^ (bits - 1) = B at hlo hhi
  rw [Int.emod_eq_of_lt (by omega) (by omega)]
  omega

theorem digitChar_toNat (d : Nat) (hd : d < 10) : (Nat.digitChar d).toNat = 48 + d := by
  interval_cases d <;> rfl

theorem decVal_ge (ds : List Nat) : ∀ acc : Nat, acc ≤ decVal acc ds := by
  induction ds with
  | nil => intro acc; exact Nat.le_refl acc
  | cons d ds ih =>
    intro acc
    have h := ih (acc * 10 + d)
    show acc ≤ decVal (acc * 10 + d) ds
    omega

theorem decVal_append (acc : Nat) (ds es : List Nat) :
    decVal acc (ds ++ es) = decVal (decVal acc ds) es := by
  unfold decVal
  rw [List.foldl_append]

theorem decVal_zeros (k : Nat) : decVal 0 (List.replicate k 0) = 0 := by
  induction k with
  | zero => rfl
  | succ k ih =>
    rw [List.replicate_succ]
    exact ih

theorem parseInt.step_digit (bits : Nat) (hb : 0 < bits) (acc d : Nat) (hd : d < 10)
    (hfit : ((acc * 10 + d : Nat) : Int) < 2 ^ (bits - 1)) :
    parseInt.step bits (acc : Int) (Nat.digitChar d) = ((acc * 10 + d : Nat) : Int) := by
  have hpos : (0 : Int) < 2 ^ (bits - 1) := by positivity
  have hc : ((Nat.digitChar d).toNat : Int) - 48 = (d : Int) := by
    rw [digitChar_toNat d hd]; push_cast; ring
  have h32 : wrapInt 32 (d : Int) = (d : Int) := by
    apply wrapInt_eq_self 32 (by decide)
    · have : (0 : Int) ≤ (d : Int) := Int.ofNat_nonneg d
      have h31 : (0 : Int) < 2 ^ (32 - 1) := by positivity
      omega
    · have : (d : Int) < 10 := by exact_mod_cast hd
      have h31 : (10 : Int) < 2 ^ (32 - 1) := by norm_num
      omega
  push_cast at hfit
  have hacc : (0 : Int) ≤ (acc : Int) := Int.ofNat_nonneg acc
  have hd0 : (0 : Int) ≤ (d : Int) := Int.ofNat_nonneg d
  unfold parseInt.step
  rw [hc, h32, wrapInt_eq_self bits hb (d : Int) (by omega) (by omega),
    wrapInt_eq_self bits hb ((acc : Int) * 10) (by omega) (by omega),
    wrapInt_eq_self bits hb ((acc : Int) * 10 + (d : Int)) (by omega) (by omega)]
  push_cast
  rfl

theorem parseInt.fold_digits (bits : Nat) (hb : 0 < bits) (ds : List Nat)
    (hds : ∀ d ∈ ds, d < 10) :
    ∀ acc : Nat, ((decVal acc ds : Nat) : Int) < 2 ^ (bits - 1) →
      (ds.map Nat.digitChar).foldl (parseInt.step bits) (acc : Int)
        = ((decVal acc ds : Nat) : Int) := by
  induction ds with
  | nil => intro acc _; rfl
  | cons d ds ih =>
    intro acc hfit
    have hd : d < 10 := hds d (List.mem_cons_self d ds)
    have hrest : ∀ e ∈ ds, e < 10 := fun e he => hds e (List.mem_cons_of_mem d he)
    have hfit2 : ((decVal (acc * 10 + d) ds : Nat) : Int) < 2 ^ (bits - 1) := hfit
    have hle : (((acc * 10 + d : Nat)) : Int) ≤ ((decVal (acc * 10 + d) ds : Nat) : Int) := by
      exact_mod_cast decVal_ge ds (acc * 10 + d)
    rw [List.map_cons, List.foldl_cons,
      parseInt.step_digit bits hb acc d hd (lt_of_le_of_lt hle hfit2)]
    exact ih hrest (acc * 10 + d) hfit2

theorem toDigitsCore_digits (fuel : Nat) : ∀ (n : Nat) (tail : List Char), n < fuel →
    ∃ ds : List Nat, (∀ d ∈ ds, d < 10) ∧
      Nat.toDigitsCore 10 fuel n tail = ds.map Nat.digitChar ++ tail ∧ decVal 0 ds = n := by
  induction fuel with
  | zero => intro n tail h; exact absurd h (Nat.not_lt_zero n)
  | succ fuel ih =>
    intro n tail hn
    have hmod : n % 10 < 10 := Nat.mod_lt n (by decide)
    by_cases hq : n / 10 = 0
    · refine ⟨[n % 10], ?_, ?_, ?_⟩
      · intro d hmem
        rw [List.mem_singleton] at hmem
        omega
      · simp only [Nat.toDigitsCore, hq, if_true, List.map_cons, List.map_nil,
          List.cons_append, List.nil_append]
      · show 0 * 10 + n % 10 = n
        omega
    · obtain ⟨ds, hds, hcore, hval⟩ := ih (n / 10) (Nat.digitChar (n % 10) :: tail) (by omega)
      refine ⟨ds ++ [n % 10], ?_, ?_, ?_⟩
      · intro d hmem
        rcases List.mem_append.mp hmem with h | h
        · exact hds d h
        · rw [List.mem_singleton] at h
          omega
      · simp only [Nat.toDigitsCore, hq, if_false, hcore, List.map_append, List.map_cons,
          List.map_nil, List.append_assoc, List.cons_append, List.nil_append]
      · rw [decVal_append, hval]
        show n / 10 * 10 + n % 10 = n
        omega

theorem repr_digits (n : Nat) :
    ∃ ds : List Nat, (∀ d ∈ ds, d < 10) ∧
      (toString n).toList = ds.map Nat.digitChar ∧ decVal 0 ds = n := by
  obtain ⟨ds, hds, hcore, hval⟩ := toDigitsCore_digits (n + 1) n [] (Nat.lt_succ_self n)
  refine ⟨ds, hds, ?_, hval⟩
  show (Nat.repr n).toList = _
  rw [Nat.repr, Nat.toDigits, hcore, List.append_nil]
  rfl

/-- Reading back a decimal rendering with leading zeros. -/
theorem parseInt_zeros_repr (bits : Nat) (hb : 0 < bits) (k n : Nat)
    (hn : (n : Int) < 2 ^ (bits - 1)) :
    parseInt bits (String.mk (List.replicate k '0') ++ toString n) = (n : Int) := by
  obtain ⟨ds, hds, hstr, hval⟩ := repr_digits n
  have hall : ∀ d ∈ List.replicate k 0 ++ ds, d < 10 := by
    intro d hmem
    rcases List.mem_append.mp hmem with h | h
    · rw [List.eq_of_mem_replicate h]; decide
    · exact hds d h
  have hv : decVal 0 (List.replicate k 0 ++ ds) = n := by
    rw [decVal_append, decVal_zeros, hval]
  have hlist : (String.mk (List.replicate k '0') ++ toString n).toList
      = (List.replicate k 0 ++ ds).map Nat.digitChar := by
    rw [String.toList, String.data_append, List.map_append, List.map_replicate, ← hstr]
    rfl
  unfold parseInt
  rw [hlist]
  have h := parseInt.fold_digits bits hb (List.replicate k 0 ++ ds) hall 0 (by rw [hv]; exact hn)
  rw [hv] at h
  exact h

/-! ## `parseInt`: claim C9 -/

/-- C9: `parseInt` inverts decimal formatting.  For an `int` of `bits` bits and
every `n` that fits in it (`n < 2^(bits-1)`, so every port `0..65535` when
`bits` is 32 or 64), `parseInt` of the decimal string of `n` is `n`, also with
any number of leading zeros, and a dial whose address carries that port
string connects to port `n`. -/
theorem parseInt_inverts_decimal (bits : Nat) (hb : 0 < bits) (n : Nat)
    (hn : (n : Int) < 2 ^ (bits - 1)) :
    parseInt bits (toString n) = (n : Int) ∧
    (∀ k : Nat, parseInt bits (String.mk (List.replicate k '0') ++ toString n) = (n : Int)) ∧
    (∀ (net : Net) (ctx : Context) (network addr host : String) (ip : IP) (rest : List IP)
        (k : Nat),
      net.SplitHostPort addr = .ok (host, String.mk (List.replicate k '0') ++ toString n) →
      net.LookupIP host = .ok (ip :: rest) →
      (Dial net bits ctx network addr).attempts = [(network, ⟨ip, (n : Int), ""⟩)]) := by
  have hz : ∀ k : Nat,
      parseInt bits (String.mk (List.replicate k '0') ++ toString n) = (n : Int) :=
    fun k => parseInt_zeros_repr bits hb k n hn
  refine ⟨?_, hz, ?_⟩
  · have h0 := hz 0
    have he : String.mk (List.replicate 0 '0') ++ toString n = toString n := by
      show "" ++ toString n = toString n
      exact String.empty_append (toString n)
    rw [he] at h0
    exact h0
  · intro net ctx network addr host ip rest k hsplit hlook
    unfold Dial
    rw [hsplit]
    simp only [hlook, List.head?_cons, hz k]

theorem parseInt_inverts_decimal_witness :
    parseInt 32 (toString 65535) = (65535 : Int) ∧
      parseInt 32 ("000" ++ toString 65535) = (65535 : Int) :=
  have h := parseInt_inverts_decimal 32 (by decide) 65535 (by norm_num)
  ⟨h.1, h.2.1 3⟩

/-! ## `main`: claims C3, C4, C8 -/

/-- C3: when the values of the flags `user` and `pass` are both non-empty, the
configuration built by `main` has `AuthMethods` equal to exactly one
`UserPassAuthenticator` whose credentials are the single entry user -> pass,
and NoAuth is not among the methods. -/
theorem main_userpass_only (net : Net) (bits : Nat) (args : Args)
    (hu : flagString "" args.user ≠ "") (hp : flagString "" args.pass ≠ "") :
    (main net bits args).conf.AuthMethods
        = [Authenticator.UserPassAuthenticator
            [(flagString "" args.user, flagString "" args.pass)]] ∧
      Authenticator.NoAuthAuthenticator ∉ (main net bits args).conf.AuthMethods := by
  have h : (main net bits args).conf.AuthMethods
      = [Authenticator.UserPassAuthenticator
          [(flagString "" args.user, flagString "" args.pass)]] := by
    show (if flagString "" args.user ≠ "" ∧ flagString "" args.pass ≠ "" then _ else _) = _
    rw [if_pos ⟨hu, hp⟩]
  refine ⟨h, ?_⟩
  rw [h]
  intro hmem
  rw [List.mem_singleton] at hmem
  cases hmem

theorem main_userpass_only_witness :
    (main demoNet 64 ⟨none, some "alice", some "s3cret"⟩).conf.AuthMethods
        = [Authenticator.UserPassAuthenticator [("alice", "s3cret")]] ∧
      Authenticator.NoAuthAuthenticator
        ∉ (main demoNet 64 ⟨none, some "alice", some "s3cret"⟩).conf.AuthMethods :=
  main_userpass_only demoNet 64 ⟨none, some "alice", some "s3cret"⟩ (by decide) (by decide)

/-- C4: when the value of the flag `user` or of the flag `pass` is empty,
`main` configures no authenticator at all (a lone user or password is
dropped, and `Credentials` stays unset), so the server made from that
configuration has NoAuth as its only method and no UserPass authenticator. -/
theorem main_noauth_only (net : Net) (bits : Nat) (args : Args)
    (h : flagString "" args.user = "" ∨ flagString "" args.pass = "") :
    (main net bits args).conf.AuthMethods = [] ∧
      (main net bits args).conf.Credentials = none ∧
      (socks5New (main net bits args).conf).AuthMethods
        = [Authenticator.NoAuthAuthenticator] ∧
      ∀ creds : StaticCredentials, Authenticator.UserPassAuthenticator creds
        ∉ (socks5New (main net bits args).conf).AuthMethods := by
  have hnot : ¬ (flagString "" args.user ≠ "" ∧ flagString "" args.pass ≠ "") := by
    rintro ⟨hu, hp⟩
    rcases h with h | h
    · exact hu h
    · exact hp h
  have hempty : (main net bits args).conf.AuthMethods = [] := by
    show (if flagString "" args.user ≠ "" ∧ flagString "" args.pass ≠ "" then _ else _) = _
    rw [if_neg hnot]
  have hcred : (main net bits args).conf.Credentials = none := rfl
  have hnew : (socks5New (main net bits args).conf).AuthMethods
      = [Authenticator.NoAuthAuthenticator] := by
    unfold socks5New
    rw [if_pos hempty, hcred]
  refine ⟨hempty, hcred, hnew, ?_⟩
  intro creds hmem
  rw [hnew, List.mem_singleton] at hmem
  cases hmem

theorem main_noauth_only_witness :
    (socks5New (main demoNet 64 ⟨some 1081, some "alice", none⟩).conf).AuthMethods
      = [Authenticator.NoAuthAuthenticator] :=
  (main_noauth_only demoNet 64 ⟨some 1081, some "alice", none⟩ (Or.inr rfl)).2.2.1

/-- C8: the server listens on network "tcp" at the address ":" followed by the
decimal rendering of the value of `--port`; without `--port` the address is
":1080". -/
theorem main_listen_addr (net : Net) (bits : Nat) (p : Int) (user pass : Option String) :
    (main net bits ⟨some p, user, pass⟩).network = "tcp" ∧
      (main net bits ⟨some p, user, pass⟩).addr = ":" ++ toString p ∧
      (main net bits ⟨none, user, pass⟩).network = "tcp" ∧
      (main net bits ⟨none, user, pass⟩).addr = ":1080" ∧
      (main net bits ⟨some 8080, user, pass⟩).addr = ":8080" ∧
      (main net bits ⟨some (-1), user, pass⟩).addr = ":-1" :=
  ⟨rfl, rfl, rfl, rfl, rfl, rfl⟩

/-! ## The `Dial` hook: claims C5, C6, C10 -/

/-- C5, as the code has it: when `addr` splits into `host` and `port` and the
lookup of `host` returns a non-empty list, the hook makes exactly one
connection attempt, on the network it was given, to the TCP address made of
the first address of the list (whatever its family) and of `parseInt port`,
and returns what that attempt returns.  That port is the numeric value of the
port string whenever the string is the decimal rendering, leading zeros
allowed, of a non-negative number `n` that fits in `int`: the attempt then
goes to port `n`. -/
theorem Dial_connects_by_ip (net : Net) (bits : Nat) (ctx : Context)
    (network addr host port : String) (ip : IP) (rest : List IP)
    (hsplit : net.SplitHostPort addr = .ok (host, port))
    (hlook : net.LookupIP host = .ok (ip :: rest)) :
    (Dial net bits ctx network addr).attempts
        = [(network, ⟨ip, parseInt bits port, ""⟩)] ∧
      (Dial net bits ctx network addr).result
        = net.DialTCP network ⟨ip, parseInt bits port, ""⟩ ∧
      ∀ n k : Nat, 0 < bits → (n : Int) < 2 ^ (bits - 1) →
        port = String.mk (List.replicate k '0') ++ toString n →
        (Dial net bits ctx network addr).attempts = [(network, ⟨ip, (n : Int), ""⟩)] ∧
          (Dial net bits ctx network addr).result
            = net.DialTCP network ⟨ip, (n : Int), ""⟩ := by
  have hatt : (Dial net bits ctx network addr).attempts
      = [(network, ⟨ip, parseInt bits port, ""⟩)] := by
    unfold Dial
    rw [hsplit]
    simp only [hlook, List.head?_cons]
  have hres : (Dial net bits ctx network addr).result
      = net.DialTCP network ⟨ip, parseInt bits port, ""⟩ := by
    unfold Dial
    rw [hsplit]
    simp only [hlook, List.head?_cons]
  refine ⟨hatt, hres, ?_⟩
  intro n k hb hn hport
  have hval : parseInt bits port = (n : Int) := by
    rw [hport]
    exact parseInt_zeros_repr bits hb k n hn
  rw [hatt, hres, hval]
  exact ⟨rfl, rfl⟩

theorem Dial_connects_by_ip_witness :
    (Dial demoNet 64 background "tcp6" "v6.example.com:0443").attempts
        = [("tcp6", ⟨[0x26, 0x06, 0x28, 0, 0x02, 0x20, 0, 1, 0x02, 0x48, 0x18, 0x93, 0x25, 0xc8,
            0x19, 0x46], 443, ""⟩)] ∧
      (Dial demoNet 64 background "tcp6" "v6.example.com:0443").result = .ok ⟨1⟩ :=
  (Dial_connects_by_ip demoNet 64 background "tcp6" "v6.example.com:0443" "v6.example.com"
    "0443" _ [] rfl rfl).2.2 443 1 (by decide) (by norm_num) rfl

/-- C5 fails as stated: the port of the attempt is `parseInt port`, not the
numeric value of the port string.  The port string "-1", the decimal string
of `-1`, is dialled as port `-29`; the port string "18446744073709551696",
the decimal string of `2^64 + 80`, is dialled as port `80` on a 64-bit
`int`. -/
theorem Dial_port_not_numeric :
    toString (-1 : Int) = "-1" ∧
      (Dial oddPortNet 64 background "tcp" "example.com:-1").attempts
        = [("tcp", ⟨[93, 184, 216, 34], -29, ""⟩)] ∧
      toString (18446744073709551696 : Nat) = "18446744073709551696" ∧
      (Dial oddPortNet 64 background "tcp" "example.com:18446744073709551696").attempts
        = [("tcp", ⟨[93, 184, 216, 34], 80, ""⟩)] := by
  have hbig : parseInt 64 "18446744073709551696" = 80 := by
    simp [parseInt, parseInt.step, wrapInt]
  have hatt : (Dial oddPortNet 64 background "tcp" "example.com:18446744073709551696").attempts
      = [("tcp", ⟨[93, 184, 216, 34], parseInt 64 "18446744073709551696", ""⟩)] := rfl
  refine ⟨rfl, rfl, rfl, ?_⟩
  rw [hatt, hbig]

/-- C6, as the code has it: the hook does not look at its context.  For every
dial request the outcome (the attempts made and the value returned) is the
same for any two contexts. -/
theorem Dial_context_irrelevant (net : Net) (bits : Nat) (ctx1 ctx2 : Context)
    (network addr : String) :
    Dial net bits ctx1 network addr = Dial net bits ctx2 network addr :=
  rfl

/-- C6 fails as stated: with a context that is cancelled and past its
deadline the hook still makes the connection attempt and returns the
connection, exactly as with the background context. -/
theorem Dial_ignores_dead_context :
    (Dial demoNet 64 deadContext "tcp" "example.com:80").attempts.length = 1 ∧
      (Dial demoNet 64 deadContext "tcp" "example.com:80").result = .ok ⟨1⟩ ∧
      (Dial demoNet 64 background "tcp" "example.com:80").result = .ok ⟨1⟩ :=
  ⟨rfl, rfl, rfl⟩

/-- C10: the hook returns without a connection attempt in exactly three
cases, each with its own error: the split of `addr` fails (that error), the
lookup of the host fails (that error), the lookup returns the empty list
("no IP address found for <host>").  In every other case exactly one attempt
is made and its result is returned. -/
theorem Dial_failure_cases (net : Net) (bits : Nat) (ctx : Context) (network addr : String) :
    (∀ err, net.SplitHostPort addr = .error err →
        Dial net bits ctx network addr = ⟨[], .error err⟩) ∧
    (∀ host port err, net.SplitHostPort addr = .ok (host, port) →
        net.LookupIP host = .error err →
        Dial net bits ctx network addr = ⟨[], .error err⟩) ∧
    (∀ host port, net.SplitHostPort addr = .ok (host, port) →
        net.LookupIP host = .ok [] →
        Dial net bits ctx network addr
          = ⟨[], .error (GoError.errorf ("no IP address found for " ++ host))⟩) ∧
    ((Dial net bits ctx network addr).attempts = [] ↔
        ((∃ err, net.SplitHostPort addr = .error err) ∨
          ∃ host port, net.SplitHostPort addr = .ok (host, port) ∧
            ((∃ err, net.LookupIP host = .error err) ∨ net.LookupIP host = .ok []))) ∧
    ((Dial net bits ctx network addr).attempts = [] →
        ∃ err, (Dial net bits ctx network addr).result = .error err) ∧
    ((Dial net bits ctx network addr).attempts ≠ [] →
        ∃ raddr, (Dial net bits ctx network addr).attempts = [(network, raddr)] ∧
          (Dial net bits ctx network addr).result = net.DialTCP network raddr) := by
  unfold Dial
  cases hsplit : net.SplitHostPort addr with
  | error e => simp
  | ok hp =>
    obtain ⟨host, port⟩ := hp
    cases hlook : net.LookupIP host with
    | error e =>
      simp [hlook]
      intro host2 port2 err hh _ hl
      subst hh
      rw [hlook] at hl
      cases hl
      rfl
    | ok ips =>
      cases ips with
      | nil =>
        simp [hlook]
        intro host2 port2 err hh _ hl
        subst hh
        rw [hlook] at hl
        cases hl
      | cons ip rest =>
        simp [hlook]
        intro host2 port2 err hh _ hl
        subst hh
        rw [hlook] at hl
        cases hl

theorem Dial_failure_cases_witness :
    (Dial demoNet 64 background "tcp" "empty.example.com:80")
      = ⟨[], .error (GoError.errorf ("no IP address found for " ++ "empty.example.com"))⟩ :=
  (Dial_failure_cases demoNet 64 background "tcp" "empty.example.com:80").2.2.1
    "empty.example.com" "80" rfl rfl

end Sdoor
